import Mathlib

/-!
Shallow embedding of the AMM pricing engine of the `cardex` repository
(`src/cardex/dexs/amm/amm_types.py`), together with theorems settling the
frozen claims about it.

Conventions of the embedding:
* Python arbitrary-precision integers are `Int`; Python floor division `//`
  is `Int.fdiv` (floor division, also for negative operands).
* Python `float` true division is modelled exactly over `ℚ`; every place
  where the Python code would raise `ZeroDivisionError` (integer or float
  division with zero divisor) is modelled by an explicit divisor test that
  returns `SwapError.zeroDivision`.
* Python exceptions are modelled with `Except SwapError`; `ValueError`s are
  classified into the spec's error kinds (`invalidInput` for wrong bundle
  arity, `unknownAsset` for a unit foreign to the pool) with the source's
  message strings, `NotImplementedError` becomes `unimplemented`.
* `int(x)` applied to a Python float truncates toward zero; this is `pyInt`.
-/

/-- Error kinds of the pricing engine, following the spec's taxonomy;
messages are the ones raised by the source. -/
inductive SwapError where
  | invalidInput (msg : String)
  | unknownAsset (msg : String)
  | zeroDivision
  | unimplemented (msg : String)
  deriving DecidableEq, Repr

deriving instance DecidableEq for Except

/-- Asset bundle: a mapping from unit identifier to integer quantity,
embedded as an association list in iteration order. -/
structure Assets where
  entries : List (String × Int)
  deriving DecidableEq, Repr

/-- Bundle holding a single unit, as built by `Assets(**{unit: quantity})`. -/
def Assets.single (u : String) (q : Int) : Assets := ⟨[(u, q)]⟩

/-- Number of distinct units in the bundle (`len(asset)`). -/
def Assets.length (a : Assets) : Nat := a.entries.length

/-- First unit of the bundle; total helper used only after the bundle's
arity has been established to be one. -/
def Assets.unit (a : Assets) : String := (a.entries.headD ("", 0)).1

/-- First quantity of the bundle; total helper used only after the bundle's
arity has been established to be one. -/
def Assets.quantity (a : Assets) : Int := (a.entries.headD ("", 0)).2

/-- Modelled from the spec: the `Assets.unit()` accessor itself is not under
`src/` (it lives in `cardex.dataclasses.models`); per spec §4.1 it "returns
the sole unit identifier, fails if the bundle does not contain exactly one
entry", the failure being the spec's `InvalidInput` kind (§7). -/
def Assets.unitE (a : Assets) : Except SwapError String :=
  if a.length = 1 then .ok a.unit
  else .error (.invalidInput "Asset bundle does not contain exactly one unit.")

/-- Truncation toward zero of an exact rational, the behaviour of Python's
`int()` on a float. -/
def pyInt (q : ℚ) : Int := q.num.tdiv q.den

/-- Quantity carried by a successful swap result; `none` when the call
raised. -/
def swapQty (r : Except SwapError (Assets × ℚ)) : Option Int :=
  match r with
  | .ok (a, _) => some a.quantity
  | .error _ => none

/-- Pool snapshot for `AbstractConstantProductPoolState`: two units, two
reserves and the optional volume fee in basis points. -/
structure CPPool where
  unit_a : String
  unit_b : String
  reserve_a : Int
  reserve_b : Int
  volume_fee : Option Int
  deriving DecidableEq, Repr

/-- Python's `self.volume_fee or 0`. -/
def CPPool.feeOrZero (p : CPPool) : Int :=
  match p.volume_fee with
  | none => 0
  | some f => f

/-- Input-side reserve selected by the input unit
(`amm_types.py` lines 37-42). -/
def CPPool.reserveIn (p : CPPool) (u : String) : Int :=
  if u = p.unit_a then p.reserve_a else p.reserve_b

/-- Output-side reserve selected by the input unit
(`amm_types.py` lines 37-42). -/
def CPPool.reserveOut (p : CPPool) (u : String) : Int :=
  if u = p.unit_a then p.reserve_b else p.reserve_a

/-- Output unit selected by the input unit (`amm_types.py` lines 37-42). -/
def CPPool.unitOut (p : CPPool) (u : String) : String :=
  if u = p.unit_a then p.unit_b else p.unit_a

/-- `AbstractConstantProductPoolState.get_amount_out`
(`amm_types.py` lines 13-63). -/
def cpGetAmountOut (p : CPPool) (asset : Assets) (precise : Bool) :
    Except SwapError (Assets × ℚ) :=
  if asset.length ≠ 1 then
    .error (.invalidInput "Asset should only have one token.")
  else if ¬(asset.unit = p.unit_a ∨ asset.unit = p.unit_b) then
    .error (.unknownAsset
      ("Asset " ++ asset.unit ++ " is invalid for pool " ++ p.unit_a ++ "-" ++ p.unit_b))
  else
    let reserve_in := p.reserveIn asset.unit
    let reserve_out := p.reserveOut asset.unit
    let unit_out := p.unitOut asset.unit
    let fee_modifier := 10000 - p.feeOrZero
    let numerator := asset.quantity * fee_modifier * reserve_out
    let denominator := asset.quantity * fee_modifier + reserve_in * 10000
    if denominator = 0 then .error .zeroDivision
    else
      let amount_out := numerator.fdiv denominator
      if amount_out = 0 then .ok (Assets.single unit_out amount_out, 0)
      else
        let price_numerator :=
          reserve_out * asset.quantity * denominator * fee_modifier
            - numerator * reserve_in * 10000
        let price_denominator := reserve_out * asset.quantity * denominator * 10000
        if price_denominator = 0 then .error .zeroDivision
        else
          .ok (Assets.single unit_out amount_out,
            (price_numerator : ℚ) / (price_denominator : ℚ))

/-- `AbstractConstantProductPoolState.get_amount_in`
(`amm_types.py` lines 65-110). -/
def cpGetAmountIn (p : CPPool) (asset : Assets) (precise : Bool) :
    Except SwapError (Assets × ℚ) :=
  if asset.length ≠ 1 then
    .error (.invalidInput "Asset should only have one token.")
  else if ¬(asset.unit = p.unit_a ∨ asset.unit = p.unit_b) then
    .error (.unknownAsset
      ("Asset " ++ asset.unit ++ " is invalid for pool " ++ p.unit_a ++ "-" ++ p.unit_b))
  else
    let reserve_in := if asset.unit = p.unit_b then p.reserve_a else p.reserve_b
    let reserve_out := if asset.unit = p.unit_b then p.reserve_b else p.reserve_a
    let unit_out := if asset.unit = p.unit_b then p.unit_a else p.unit_b
    let fee_modifier := 10000 - p.feeOrZero
    let numerator := asset.quantity * 10000 * reserve_in
    let denominator := (reserve_out - asset.quantity) * fee_modifier
    if denominator = 0 then .error .zeroDivision
    else
      let amount_in := numerator.fdiv denominator
      let price_numerator :=
        reserve_out * numerator * fee_modifier
          - asset.quantity * denominator * reserve_in * 10000
      let price_denominator := reserve_out * numerator * 10000
      if price_denominator = 0 then .error .zeroDivision
      else
        .ok (Assets.single unit_out amount_in,
          (price_numerator : ℚ) / (price_denominator : ℚ))

example :
    swapQty (cpGetAmountOut ⟨"A", "B", 1000000, 1000000, some 30⟩
      (Assets.single "A" 10000) true) = some 9871 := by decide

/-- Pool snapshot for `AbstractStableSwapPoolState`: the two raw asset
quantities (`assets.quantity(0)`, `assets.quantity(1)`), the class-level
`asset_mulitipliers`, the optional volume fee, and a flag selecting the
`AbstractCommonStableSwapPoolState` override of `_get_ann`. -/
structure SSPool where
  unit_a : String
  unit_b : String
  quantity0 : Int
  quantity1 : Int
  mult0 : Int
  mult1 : Int
  volume_fee : Option Int
  commonVariant : Bool
  deriving DecidableEq, Repr

/-- Amplification coefficient property (`amm_types.py` lines 128-131). -/
def SSPool.amp (_ : SSPool) : Int := 75

/-- Multiplier-normalized reserve of asset A (`amm_types.py` lines 118-121). -/
def SSPool.reserve_a (p : SSPool) : Int := p.quantity0 * p.mult0

/-- Multiplier-normalized reserve of asset B (`amm_types.py` lines 123-126). -/
def SSPool.reserve_b (p : SSPool) : Int := p.quantity1 * p.mult1

/-- Python's `self.volume_fee or 0` for stable swap pools. -/
def SSPool.feeOrZero (p : SSPool) : Int :=
  match p.volume_fee with
  | none => 0
  | some f => f

/-- `_get_ann`: the standard variant (`amm_types.py` lines 133-142) uses
`amp * n_coins ** n_coins`; the common variant
(`AbstractCommonStableSwapPoolState`, lines 298-304) uses `amp * n_coins`. -/
def SSPool.getAnn (p : SSPool) : Int :=
  if p.commonVariant then p.amp * 2 else p.amp * 2 ^ 2

/-- One iteration of the `_get_d` loop body (`amm_types.py` lines 156-158),
with the two divisions guarded exactly where Python would raise
`ZeroDivisionError`. -/
def dStep (ann s x y d : ℚ) : Except SwapError ℚ :=
  if (4 : ℚ) * x * y = 0 then .error .zeroDivision
  else
    let d_p := d ^ 3 / (4 * x * y)
    if (ann - 1) * d + 3 * d_p = 0 then .error .zeroDivision
    else .ok (d * (ann * s + d_p * 2) / ((ann - 1) * d + 3 * d_p))

/-- The `for _ in range(256)` loop of `_get_d` (`amm_types.py` lines
155-163): update `d`, break as soon as `|d - d_prev| < 1`, and return the
last iterate when the fuel runs out. -/
def dIter (ann s x y : ℚ) : ℚ → ℕ → Except SwapError ℚ
  | d, 0 => .ok d
  | d, fuel + 1 =>
    match dStep ann s x y d with
    | .error e => .error e
    | .ok d1 => if |d1 - d| < 1 then .ok d1 else dIter ann s x y d1 fuel

/-- `_get_d` (`amm_types.py` lines 144-163), parameterized by the
amplification product and the two normalized reserves: return `0` when
`s = 0`, otherwise run the capped iteration from `d = s`. -/
def computeD (ann x y : ℚ) : Except SwapError ℚ :=
  let s := x + y
  if s = 0 then .ok 0 else dIter ann s x y s 256

/-- `_get_d` as invoked on a pool state. -/
def SSPool.getD (p : SSPool) : Except SwapError ℚ :=
  computeD (p.getAnn : ℚ) (p.reserve_a : ℚ) (p.reserve_b : ℚ)

/-- The `for _ in range(256)` loop of `_get_y` (`amm_types.py` lines
208-213): same shape as the `_get_d` loop, on the recurrence
`out = (out ** 2 + c) / (2 * out + b - d)`. -/
def yIter (b c d : ℚ) : ℚ → ℕ → Except SwapError ℚ
  | out, 0 => .ok out
  | out, fuel + 1 =>
    if (2 : ℚ) * out + b - d = 0 then .error .zeroDivision
    else
      let out1 := (out ^ 2 + c) / (2 * out + b - d)
      if |out1 - out| < 1 then .ok out1 else yIter b c d out1 fuel

/-- `_get_y` (`amm_types.py` lines 165-220). -/
def getY (p : SSPool) (in_assets : Assets) (out_unit : String)
    (precise get_input : Bool) : Except SwapError Assets :=
  let ann := p.getAnn
  match p.getD with
  | .error e => .error e
  | .ok d =>
    let subtract : Int := if get_input then -1 else 1
    if in_assets.length > 1 then .error (.invalidInput "Only one input asset allowed.")
    else
      match in_assets.unitE with
      | .error e => .error e
      | .ok u =>
        if ¬(u = p.unit_a ∨ u = p.unit_b) then
          .error (.unknownAsset "Invalid input token.")
        else if ¬(out_unit = p.unit_a ∨ out_unit = p.unit_b) then
          .error (.unknownAsset "Invalid output token.")
        else
          let in_quantity := in_assets.quantity
          let in_reserve : ℚ :=
            if u = p.unit_a then
              (p.reserve_a : ℚ) + (in_quantity : ℚ) * (p.mult0 : ℚ) * (subtract : ℚ)
            else
              (p.reserve_b : ℚ) + (in_quantity : ℚ) * (p.mult1 : ℚ) * (subtract : ℚ)
          let out_multiplier : Int := if u = p.unit_a then p.mult1 else p.mult0
          let s := in_reserve
          if (4 : ℚ) * (ann : ℚ) * in_reserve = 0 then .error .zeroDivision
          else
            let c := d ^ 3 / (4 * (ann : ℚ) * in_reserve)
            if (ann : ℚ) = 0 then .error .zeroDivision
            else
              let b := s + d / (ann : ℚ)
              match yIter b c d d 256 with
              | .error e => .error e
              | .ok out =>
                if (out_multiplier : ℚ) = 0 then .error .zeroDivision
                else .ok (Assets.single out_unit (pyInt (out / (out_multiplier : ℚ))))

/-- `AbstractStableSwapPoolState.get_amount_out`
(`amm_types.py` lines 222-255). -/
def ssGetAmountOut (p : SSPool) (asset : Assets) (precise fee_on_input : Bool) :
    Except SwapError (Assets × ℚ) :=
  match (if fee_on_input then
          match asset.unitE with
          | .error e => .error e
          | .ok u =>
            .ok (Assets.single u
              (pyInt ((asset.quantity : ℚ) * ((10000 : ℚ) - (p.feeOrZero : ℚ)) / 10000)))
         else .ok asset : Except SwapError Assets) with
  | .error e => .error e
  | .ok in_asset =>
    match asset.unitE with
    | .error e => .error e
    | .ok u =>
      let out_unit := if u = p.unit_b then p.unit_a else p.unit_b
      match getY p in_asset out_unit precise false with
      | .error e => .error e
      | .ok out_asset =>
        if (if out_unit = p.unit_b then (p.mult1 : ℚ) = 0 else (p.mult0 : ℚ) = 0) then
          .error .zeroDivision
        else
          let out_reserve : ℚ :=
            if out_unit = p.unit_b then (p.reserve_b : ℚ) / (p.mult1 : ℚ)
            else (p.reserve_a : ℚ) / (p.mult0 : ℚ)
          let q1 : Int := pyInt (out_reserve - (out_asset.quantity : ℚ))
          let q2 : Int :=
            if ¬fee_on_input then
              pyInt ((q1 : ℚ) * ((10000 : ℚ) - (p.feeOrZero : ℚ)) / 10000)
            else q1
          .ok (Assets.single out_unit q2, 0)

/-- `AbstractStableSwapPoolState.get_amount_in`
(`amm_types.py` lines 257-288). -/
def ssGetAmountIn (p : SSPool) (asset : Assets) (precise fee_on_input : Bool) :
    Except SwapError (Assets × ℚ) :=
  match (if ¬fee_on_input then
          match asset.unitE with
          | .error e => .error e
          | .ok u =>
            if (10000 : ℚ) - (p.feeOrZero : ℚ) = 0 then .error .zeroDivision
            else
              .ok (Assets.single u
                (pyInt ((asset.quantity : ℚ) * (10000 : ℚ) / ((10000 : ℚ) - (p.feeOrZero : ℚ)))))
         else .ok asset : Except SwapError Assets) with
  | .error e => .error e
  | .ok out_asset =>
    match asset.unitE with
    | .error e => .error e
    | .ok u =>
      let in_unit := if u = p.unit_b then p.unit_a else p.unit_b
      match getY p out_asset in_unit precise true with
      | .error e => .error e
      | .ok in_asset =>
        if (if in_unit = p.unit_b then (p.mult1 : ℚ) = 0 else (p.mult0 : ℚ) = 0) then
          .error .zeroDivision
        else
          let in_reserve : ℚ :=
            if in_unit = p.unit_b then (p.reserve_b : ℚ) / (p.mult1 : ℚ)
            else (p.reserve_a : ℚ) / (p.mult0 : ℚ)
          let q1 : Int := pyInt ((in_asset.quantity : ℚ) - in_reserve)
          if fee_on_input ∧ (10000 : ℚ) - (p.feeOrZero : ℚ) = 0 then .error .zeroDivision
          else
            let q2 : Int :=
              if fee_on_input then
                pyInt ((q1 : ℚ) * (10000 : ℚ) / ((10000 : ℚ) - (p.feeOrZero : ℚ)))
              else q1
            .ok (Assets.single in_unit q2, 0)

/-- `AbstractConstantLiquidityPoolState.get_amount_out`
(`amm_types.py` lines 314-321). -/
def clGetAmountOut (asset : Assets) (precise : Bool) :
    Except SwapError (Assets × ℚ) :=
  .error (.unimplemented "CLPP amount out is not yet implemented.")

/-- `AbstractConstantLiquidityPoolState.get_amount_in`
(`amm_types.py` lines 323-330). -/
def clGetAmountIn (asset : Assets) (precise : Bool) :
    Except SwapError (Assets × ℚ) :=
  .error (.unimplemented "CLPP amount in is not yet implemented.")

/-- Total form of one `_get_d` iteration, used to describe the iterates of
the loop mathematically. -/
def dStepT (ann s x y d : ℚ) : ℚ :=
  d * (ann * s + (d ^ 3 / (4 * x * y)) * 2) / ((ann - 1) * d + 3 * (d ^ 3 / (4 * x * y)))

/-- The mathematical sequence of `_get_d` iterates starting from `D₀ = x + y`. -/
def dSeq (ann x y : ℚ) : ℕ → ℚ
  | 0 => x + y
  | k + 1 => dStepT ann (x + y) x y (dSeq ann x y k)

lemma dSeq_pos (ann x y : ℚ) (hx : 0 < x) (hy : 0 < y) (hann : 1 ≤ ann) :
    ∀ k, 0 < dSeq ann x y k := by
  intro k
  induction k with
  | zero => simpa [dSeq] using add_pos hx hy
  | succ k ih =>
    have hxy : 0 < (4 : ℚ) * x * y := by positivity
    have hdp : 0 < dSeq ann x y k ^ 3 / (4 * x * y) := by positivity
    have hs : 0 < x + y := add_pos hx hy
    have hann0 : 0 < ann := lt_of_lt_of_le one_pos hann
    have hnum : 0 < dSeq ann x y k *
        (ann * (x + y) + (dSeq ann x y k ^ 3 / (4 * x * y)) * 2) := by
      have : 0 < ann * (x + y) := mul_pos hann0 hs
      nlinarith [ih, hdp]
    have hden : 0 < (ann - 1) * dSeq ann x y k +
        3 * (dSeq ann x y k ^ 3 / (4 * x * y)) := by
      have h1 : 0 ≤ (ann - 1) * dSeq ann x y k :=
        mul_nonneg (by linarith) ih.le
      linarith [hdp]
    simpa [dSeq, dStepT] using div_pos hnum hden

lemma dStep_ok (ann s x y d : ℚ) (hx : 0 < x) (hy : 0 < y) (hann : 1 ≤ ann)
    (hd : 0 < d) : dStep ann s x y d = .ok (dStepT ann s x y d) := by
  have hxy : (4 : ℚ) * x * y ≠ 0 := by positivity
  have hdp : 0 < d ^ 3 / (4 * x * y) := by positivity
  have hden : (ann - 1) * d + 3 * (d ^ 3 / (4 * x * y)) ≠ 0 := by
    have h1 : 0 ≤ (ann - 1) * d := mul_nonneg (by linarith) hd.le
    have : 0 < (ann - 1) * d + 3 * (d ^ 3 / (4 * x * y)) := by linarith
    exact this.ne'
  simp [dStep, dStepT, hxy, hden]

lemma dIter_run (ann x y : ℚ) (hx : 0 < x) (hy : 0 < y) (hann : 1 ≤ ann) :
    ∀ (fuel j : ℕ), ∃ i, (fuel = 0 ∨ 1 ≤ i) ∧ i ≤ fuel ∧
      dIter ann (x + y) x y (dSeq ann x y j) fuel = .ok (dSeq ann x y (j + i)) ∧
      (∀ m, j < m → m < j + i → 1 ≤ |dSeq ann x y m - dSeq ann x y (m - 1)|) ∧
      (|dSeq ann x y (j + i) - dSeq ann x y (j + i - 1)| < 1 ∨ i = fuel) := by
  intro fuel
  induction fuel with
  | zero =>
    intro j
    exact ⟨0, Or.inl rfl, le_refl 0, rfl, fun m h1 h2 => absurd (h1.trans h2) (by omega),
      Or.inr rfl⟩
  | succ f ih =>
    intro j
    have hstep : dStep ann (x + y) x y (dSeq ann x y j) =
        .ok (dSeq ann x y (j + 1)) := by
      rw [dStep_ok ann (x + y) x y _ hx hy hann (dSeq_pos ann x y hx hy hann j)]
      rfl
    by_cases htol : |dSeq ann x y (j + 1) - dSeq ann x y j| < 1
    · refine ⟨1, Or.inr le_rfl, by omega, ?_, ?_, ?_⟩
      · simp only [dIter, hstep]
        rw [if_pos htol]
      · intro m h1 h2; omega
      · left; simpa using htol
    · obtain ⟨i, hi0, hile, heq, hrange, hstop⟩ := ih (j + 1)
      refine ⟨i + 1, Or.inr (by omega), by omega, ?_, ?_, ?_⟩
      · simp only [dIter, hstep]
        rw [if_neg htol]
        rw [show j + (i + 1) = j + 1 + i from by omega]
        exact heq
      · intro m h1 h2
        rcases Nat.lt_or_ge m (j + 2) with hm | hm
        · have : m = j + 1 := by omega
          subst this
          simpa using le_of_not_lt htol
        · exact hrange m (by omega) (by omega)
      · rcases hstop with h | h
        · left; rw [show j + (i + 1) = j + 1 + i from by omega]; exact h
        · right; omega

lemma computeD_ok (ann x y : ℚ) (hx : 0 < x) (hy : 0 < y) (hann : 1 ≤ ann) :
    ∃ k, 1 ≤ k ∧ k ≤ 256 ∧ computeD ann x y = .ok (dSeq ann x y k) ∧
      (∀ j, 0 < j → j < k → 1 ≤ |dSeq ann x y j - dSeq ann x y (j - 1)|) ∧
      (|dSeq ann x y k - dSeq ann x y (k - 1)| < 1 ∨ k = 256) := by
  have hs : x + y ≠ 0 := (add_pos hx hy).ne'
  obtain ⟨i, hi0, hile, heq, hrange, hstop⟩ := dIter_run ann x y hx hy hann 256 0
  have hi1 : 1 ≤ i := hi0.resolve_left (by omega)
  refine ⟨i, hi1, hile, ?_, ?_, ?_⟩
  · rw [computeD]
    simp only [hs, if_false]
    have h0 : dSeq ann x y 0 = x + y := rfl
    rw [← h0]
    simpa using heq
  · intro m h1 h2
    exact hrange m (by omega) (by omega)
  · simpa using hstop

@[simp] lemma Assets.length_single (u : String) (q : Int) :
    (Assets.single u q).length = 1 := rfl

@[simp] lemma Assets.unit_single (u : String) (q : Int) :
    (Assets.single u q).unit = u := rfl

@[simp] lemma Assets.quantity_single (u : String) (q : Int) :
    (Assets.single u q).quantity = q := rfl

lemma cpGetAmountOut_eq (p : CPPool) (u : String) (q : Int) (pr : Bool)
    (hu : u = p.unit_a ∨ u = p.unit_b)
    (hden : q * (10000 - p.feeOrZero) + p.reserveIn u * 10000 ≠ 0) :
    ∃ ρ : ℚ, cpGetAmountOut p (Assets.single u q) pr =
      .ok (Assets.single (p.unitOut u)
        ((q * (10000 - p.feeOrZero) * p.reserveOut u).fdiv
          (q * (10000 - p.feeOrZero) + p.reserveIn u * 10000)), ρ) := by
  rw [cpGetAmountOut]
  simp only [Assets.length_single, Assets.unit_single, Assets.quantity_single]
  rw [if_neg (by simp), if_neg (not_not_intro hu), if_neg hden]
  by_cases h0 : (q * (10000 - p.feeOrZero) * p.reserveOut u).fdiv
      (q * (10000 - p.feeOrZero) + p.reserveIn u * 10000) = 0
  · exact ⟨0, by rw [if_pos h0]⟩
  · have hnum : q * (10000 - p.feeOrZero) * p.reserveOut u ≠ 0 := by
      intro h
      exact h0 (by rw [h, Int.zero_fdiv])
    have hq : q ≠ 0 := fun h => hnum (by rw [h]; ring)
    have hro : p.reserveOut u ≠ 0 := fun h => hnum (by rw [h]; ring)
    have hpd : p.reserveOut u * q *
        (q * (10000 - p.feeOrZero) + p.reserveIn u * 10000) * 10000 ≠ 0 :=
      mul_ne_zero (mul_ne_zero (mul_ne_zero hro hq) hden) (by norm_num)
    rw [if_neg h0, if_neg hpd]
    exact ⟨_, rfl⟩

lemma fdiv_fee_zero (q rin rout : Int) (hq : 0 ≤ q) (hrin : 0 ≤ rin) :
    (q * 10000 * rout).fdiv (q * 10000 + rin * 10000) =
      (q * rout).fdiv (rin + q) := by
  have h1 : (0 : Int) ≤ q * 10000 + rin * 10000 :=
    add_nonneg (mul_nonneg hq (by norm_num)) (mul_nonneg hrin (by norm_num))
  have h2 : (0 : Int) ≤ rin + q := add_nonneg hrin hq
  rw [Int.fdiv_eq_ediv _ h1, Int.fdiv_eq_ediv _ h2,
    show q * 10000 * rout = 10000 * (q * rout) from by ring,
    show q * 10000 + rin * 10000 = 10000 * (rin + q) from by ring]
  exact Int.mul_ediv_mul_of_pos _ _ (by norm_num)

/-- Example pool of the spec's concrete scenario (§8):
`reserve_a = reserve_b = 1_000_000`, `volume_fee = 30`. -/
def cpPoolEx : CPPool := ⟨"A", "B", 1000000, 1000000, some 30⟩

/-- C1: for a constant-product pool with positive input-side reserve, a
valid single-unit input of quantity `q` makes `get_amount_out` return
`floor(q * (10000 - volume_fee) * reserve_out /
(q * (10000 - volume_fee) + reserve_in * 10000))`; with `volume_fee = 0`
this equals `floor(q * reserve_out / (reserve_in + q))`; and in the spec's
concrete scenario (reserves 1_000_000, fee 30, input 10_000 of asset A)
the output quantity is 9_871. -/
theorem cp_amount_out_formula :
    (∀ (p : CPPool) (u : String) (q : Int),
      (u = p.unit_a ∨ u = p.unit_b) → 0 < p.reserveIn u → 0 ≤ q →
      p.feeOrZero ≤ 10000 →
      ∃ ρ : ℚ, cpGetAmountOut p (Assets.single u q) true =
        .ok (Assets.single (p.unitOut u)
          ((q * (10000 - p.feeOrZero) * p.reserveOut u).fdiv
            (q * (10000 - p.feeOrZero) + p.reserveIn u * 10000)), ρ)) ∧
    (∀ (p : CPPool) (u : String) (q : Int),
      (u = p.unit_a ∨ u = p.unit_b) → 0 < p.reserveIn u → 0 ≤ q →
      p.feeOrZero = 0 →
      ∃ ρ : ℚ, cpGetAmountOut p (Assets.single u q) true =
        .ok (Assets.single (p.unitOut u)
          ((q * p.reserveOut u).fdiv (p.reserveIn u + q)), ρ)) ∧
    swapQty (cpGetAmountOut cpPoolEx (Assets.single "A" 10000) true) =
      some 9871 := by
  have hden : ∀ (p : CPPool) (u : String) (q : Int), 0 < p.reserveIn u →
      0 ≤ q → p.feeOrZero ≤ 10000 →
      q * (10000 - p.feeOrZero) + p.reserveIn u * 10000 ≠ 0 := by
    intro p u q hrin hq hfee
    have h1 : (0 : Int) ≤ q * (10000 - p.feeOrZero) :=
      mul_nonneg hq (by linarith)
    have h2 : (0 : Int) < p.reserveIn u * 10000 := by positivity
    intro h; linarith
  refine ⟨?_, ?_, by decide⟩
  · intro p u q hu hrin hq hfee
    exact cpGetAmountOut_eq p u q true hu (hden p u q hrin hq hfee)
  · intro p u q hu hrin hq hfee
    obtain ⟨ρ, h⟩ := cpGetAmountOut_eq p u q true hu
      (hden p u q hrin hq (by rw [hfee]; norm_num))
    rw [hfee, sub_zero] at h
    rw [h, fdiv_fee_zero q (p.reserveIn u) (p.reserveOut u) hq hrin.le]
    exact ⟨ρ, rfl⟩

/-- Witness for `cp_amount_out_formula`: the general formula applied to the
concrete scenario pool. -/
theorem cp_amount_out_formula_witness :
    ∃ ρ : ℚ, cpGetAmountOut cpPoolEx (Assets.single "A" 10000) true =
      .ok (Assets.single (cpPoolEx.unitOut "A")
        ((10000 * (10000 - cpPoolEx.feeOrZero) * cpPoolEx.reserveOut "A").fdiv
          (10000 * (10000 - cpPoolEx.feeOrZero) + cpPoolEx.reserveIn "A" * 10000)), ρ) :=
  cp_amount_out_formula.1 cpPoolEx "A" 10000 (Or.inl rfl) (by decide) (by decide)
    (by decide)

lemma amountOut_mul_le (q f rin rout : Int) (hq : 0 ≤ q) (hf : 0 ≤ f)
    (hf10 : f ≤ 10000) (hrin : 0 < rin) (hrout : 0 ≤ rout) :
    (rin + q) * ((q * f * rout).fdiv (q * f + rin * 10000)) ≤ q * rout := by
  have hqf : 0 ≤ q * f := mul_nonneg hq hf
  have hDpos : 0 < q * f + rin * 10000 := by nlinarith
  rw [Int.fdiv_eq_ediv _ hDpos.le]
  have hmod : 0 ≤ (q * f * rout) % (q * f + rin * 10000) :=
    Int.emod_nonneg _ hDpos.ne'
  have hdm := Int.ediv_add_emod (q * f * rout) (q * f + rin * 10000)
  have hv : (q * f + rin * 10000) * ((q * f * rout) / (q * f + rin * 10000)) ≤
      q * f * rout := by linarith
  have hvle : (rin + q) * ((q * f + rin * 10000) *
      ((q * f * rout) / (q * f + rin * 10000))) ≤ (rin + q) * (q * f * rout) :=
    mul_le_mul_of_nonneg_left hv (by linarith)
  have hkey : (rin + q) * (q * f * rout) ≤ (q * rout) * (q * f + rin * 10000) := by
    nlinarith [mul_nonneg (mul_nonneg (mul_nonneg hq hrin.le) hrout)
      (sub_nonneg.mpr hf10)]
  have hchain : (rin + q) * ((q * f * rout) / (q * f + rin * 10000)) *
      (q * f + rin * 10000) ≤ (q * rout) * (q * f + rin * 10000) := by
    calc (rin + q) * ((q * f * rout) / (q * f + rin * 10000)) *
        (q * f + rin * 10000)
        = (rin + q) * ((q * f + rin * 10000) *
            ((q * f * rout) / (q * f + rin * 10000))) := by ring
      _ ≤ (rin + q) * (q * f * rout) := hvle
      _ ≤ (q * rout) * (q * f + rin * 10000) := hkey
  exact le_of_mul_le_mul_right hchain hDpos

/-- C4: for a constant-product pool with positive reserves, a valid
single-unit input of quantity `q ≥ 0` and any fee `0 ≤ volume_fee < 10000`,
the post-trade product `(reserve_in + q) * (reserve_out - amount_out)` is at
least the pre-trade product `reserve_in * reserve_out`. -/
theorem cp_product_invariant (p : CPPool) (u : String) (q : Int)
    (out : Assets) (ρ : ℚ)
    (hu : u = p.unit_a ∨ u = p.unit_b)
    (hra : 0 < p.reserve_a) (hrb : 0 < p.reserve_b)
    (hq : 0 ≤ q) (hf0 : 0 ≤ p.feeOrZero) (hf1 : p.feeOrZero < 10000)
    (h : cpGetAmountOut p (Assets.single u q) true = .ok (out, ρ)) :
    p.reserveIn u * p.reserveOut u ≤
      (p.reserveIn u + q) * (p.reserveOut u - out.quantity) := by
  have hrin : 0 < p.reserveIn u := by
    unfold CPPool.reserveIn; split <;> assumption
  have hrout : 0 < p.reserveOut u := by
    unfold CPPool.reserveOut; split <;> assumption
  have hden : q * (10000 - p.feeOrZero) + p.reserveIn u * 10000 ≠ 0 := by
    have h1 : (0 : Int) ≤ q * (10000 - p.feeOrZero) :=
      mul_nonneg hq (by linarith)
    have h2 : (0 : Int) < p.reserveIn u * 10000 := by positivity
    intro hc; linarith
  obtain ⟨ρ', h'⟩ := cpGetAmountOut_eq p u q true hu hden
  rw [h] at h'
  have hpair := Except.ok.inj h'
  have hout : out = Assets.single (p.unitOut u)
      ((q * (10000 - p.feeOrZero) * p.reserveOut u).fdiv
        (q * (10000 - p.feeOrZero) + p.reserveIn u * 10000)) :=
    congrArg Prod.fst hpair
  rw [hout, Assets.quantity_single]
  have hkey := amountOut_mul_le q (10000 - p.feeOrZero) (p.reserveIn u)
    (p.reserveOut u) hq (by linarith) (by linarith) hrin hrout.le
  nlinarith [hkey]

/-- Witness for `cp_product_invariant`: the invariant at the spec's concrete
scenario, whose exact output bundle and price impact are computed by
`decide`. -/
theorem cp_product_invariant_witness :
    cpPoolEx.reserveIn "A" * cpPoolEx.reserveOut "A" ≤
      (cpPoolEx.reserveIn "A" + 10000) *
        (cpPoolEx.reserveOut "A" - (Assets.single "B" 9871).quantity) :=
  cp_product_invariant cpPoolEx "A" 10000 (Assets.single "B" 9871)
    ((9940090000000000000000 : ℚ) / (1009970000000000000000000 : ℚ))
    (Or.inl rfl) (by decide) (by decide) (by decide) (by decide) (by decide)
    (by rfl)

/-- C2: `_get_d` returns 0 when the reserve sum is 0; otherwise it starts
from `D₀ = S`, produces the iterates `dSeq`, runs at most 256 steps, stops
as soon as `|D_{k+1} - D_k| < 1` (every earlier step missed the tolerance),
and when the tolerance is never met it returns the 256th iterate, raising no
convergence-failure error (the result is `.ok` in every case). -/
theorem computeD_spec :
    (∀ (ann x y : ℚ), x + y = 0 → computeD ann x y = .ok 0) ∧
    (∀ (ann x y : ℚ), 0 < x → 0 < y → 1 ≤ ann →
      ∃ k, 1 ≤ k ∧ k ≤ 256 ∧ computeD ann x y = .ok (dSeq ann x y k) ∧
        (∀ j, 0 < j → j < k → 1 ≤ |dSeq ann x y j - dSeq ann x y (j - 1)|) ∧
        (|dSeq ann x y k - dSeq ann x y (k - 1)| < 1 ∨ k = 256)) := by
  constructor
  · intro ann x y h
    simp only [computeD]
    rw [if_pos h]
  · exact fun ann x y hx hy hann => computeD_ok ann x y hx hy hann

/-- Witness for `computeD_spec`: the empty pool and the pool with unit
reserves, at the standard amplification product. -/
theorem computeD_spec_witness :
    computeD 300 0 0 = .ok 0 ∧
    ∃ k, 1 ≤ k ∧ k ≤ 256 ∧ computeD 300 1 1 = .ok (dSeq 300 1 1 k) ∧
      (∀ j, 0 < j → j < k → 1 ≤ |dSeq 300 1 1 j - dSeq 300 1 1 (j - 1)|) ∧
      (|dSeq 300 1 1 k - dSeq 300 1 1 (k - 1)| < 1 ∨ k = 256) :=
  ⟨computeD_spec.1 300 0 0 (by norm_num),
   computeD_spec.2 300 1 1 (by norm_num) (by norm_num) (by norm_num)⟩

lemma computeD_balanced (ann x : ℚ) (hann : 1 ≤ ann) (hx : 0 < x) :
    computeD ann x x = .ok (2 * x) := by
  have hs : x + x ≠ 0 := by positivity
  have hstep : dStep ann (x + x) x x (x + x) = .ok (2 * x) := by
    have hxy : (4 : ℚ) * x * x ≠ 0 := by positivity
    have hdp : (x + x) ^ 3 / (4 * x * x) = x + x := by
      field_simp; ring
    have hden : (ann - 1) * (x + x) + 3 * (x + x) ≠ 0 := by
      have h0 : 0 < (ann - 1) * (x + x) + 3 * (x + x) := by nlinarith
      exact h0.ne'
    rw [dStep, if_neg hxy]
    simp only [hdp]
    rw [if_neg hden]
    congr 1
    rw [show (ann - 1) * (x + x) + 3 * (x + x) = (ann + 2) * (2 * x) from by ring,
      show (x + x) * (ann * (x + x) + (x + x) * 2) =
        2 * x * ((ann + 2) * (2 * x)) from by ring]
    exact mul_div_cancel_right₀ _ (by nlinarith)
  simp only [computeD]
  rw [if_neg hs, show (256 : ℕ) = 255 + 1 from rfl, dIter, hstep]
  simp only []
  rw [if_pos (by rw [show 2 * x - (x + x) = 0 from by ring]; norm_num)]

lemma getAnn_cast_ge_one (p : SSPool) : (1 : ℚ) ≤ (p.getAnn : ℚ) := by
  rw [SSPool.getAnn]
  cases p.commonVariant <;> simp [SSPool.amp]

/-- C5: a stableswap pool with equal positive multiplier-normalized reserves
has `_get_d` converge (within the `<1` tolerance, in one step) to
`2 * reserve_a`, whichever amplification variant the pool uses. -/
theorem getD_balanced (p : SSPool) (h : p.reserve_a = p.reserve_b)
    (hpos : 0 < p.reserve_a) :
    p.getD = .ok (2 * (p.reserve_a : ℚ)) := by
  have hc : ((p.reserve_b : ℚ)) = ((p.reserve_a : ℚ)) := by exact_mod_cast h.symm
  rw [SSPool.getD, hc]
  exact computeD_balanced _ _ (getAnn_cast_ge_one p) (by exact_mod_cast hpos)

/-- Balanced example pool: both raw quantities 5, multipliers 1. -/
def ssPoolBal : SSPool := ⟨"A", "B", 5, 5, 1, 1, none, false⟩

/-- Witness for `getD_balanced`: the balanced example pool. -/
theorem getD_balanced_witness :
    ssPoolBal.getD = .ok (2 * ((ssPoolBal.reserve_a : Int) : ℚ)) :=
  getD_balanced ssPoolBal (by decide) (by decide)

lemma computeD_zero_left (ann y : ℚ) (hy : y ≠ 0) :
    computeD ann 0 y = .error .zeroDivision := by
  have hs : (0 : ℚ) + y ≠ 0 := by simpa using hy
  simp only [computeD]
  rw [if_neg hs, show (256 : ℕ) = 255 + 1 from rfl, dIter, dStep,
    if_pos (show (4 : ℚ) * 0 * y = 0 from by ring)]

lemma computeD_zero_right (ann x : ℚ) (hx : x ≠ 0) :
    computeD ann x 0 = .error .zeroDivision := by
  have hs : x + (0 : ℚ) ≠ 0 := by simpa using hx
  simp only [computeD]
  rw [if_neg hs, show (256 : ℕ) = 255 + 1 from rfl, dIter, dStep,
    if_pos (show (4 : ℚ) * x * 0 = 0 from by ring)]

/-- C10: when exactly one multiplier-normalized reserve is zero the `S = 0`
short-circuit of `_get_d` is not taken and the first iteration divides by
zero (`D_p = D^3 / (n^n * reserve_a * reserve_b)`); with both reserves zero
the solve returns 0, and with both positive it returns a value, so the solve
is total exactly when the reserves are both positive or both zero. -/
theorem getD_single_zero_reserve (p : SSPool) :
    (p.reserve_a = 0 → p.reserve_b ≠ 0 → p.getD = .error .zeroDivision) ∧
    (p.reserve_b = 0 → p.reserve_a ≠ 0 → p.getD = .error .zeroDivision) ∧
    (p.reserve_a = 0 → p.reserve_b = 0 → p.getD = .ok 0) ∧
    (0 < p.reserve_a → 0 < p.reserve_b → ∃ v, p.getD = .ok v) := by
  refine ⟨?_, ?_, ?_, ?_⟩
  · intro ha hb
    rw [SSPool.getD, show ((p.reserve_a : ℚ)) = 0 from by exact_mod_cast ha]
    exact computeD_zero_left _ _ (by exact_mod_cast hb)
  · intro hb ha
    rw [SSPool.getD, show ((p.reserve_b : ℚ)) = 0 from by exact_mod_cast hb]
    exact computeD_zero_right _ _ (by exact_mod_cast ha)
  · intro ha hb
    rw [SSPool.getD, show ((p.reserve_a : ℚ)) = 0 from by exact_mod_cast ha,
      show ((p.reserve_b : ℚ)) = 0 from by exact_mod_cast hb]
    simp only [computeD]
    rw [if_pos (by norm_num)]
  · intro ha hb
    obtain ⟨k, _, _, heq, _, _⟩ := computeD_ok (p.getAnn : ℚ) (p.reserve_a : ℚ)
      (p.reserve_b : ℚ) (by exact_mod_cast ha) (by exact_mod_cast hb)
      (getAnn_cast_ge_one p)
    exact ⟨_, heq⟩

/-- Example pool with reserve A zero and reserve B positive. -/
def ssPoolZero : SSPool := ⟨"A", "B", 0, 5, 1, 1, none, false⟩

/-- Witness for `getD_single_zero_reserve`: a pool holding `(0, 5)` hits the
division by zero. -/
theorem getD_single_zero_reserve_witness :
    ssPoolZero.getD = .error .zeroDivision :=
  (getD_single_zero_reserve ssPoolZero).1 (by decide) (by decide)

/-- Stableswap pool with the standard `_get_ann` and multipliers 1. -/
def ssStd (q0 q1 : Int) : SSPool := ⟨"A", "B", q0, q1, 1, 1, none, false⟩

/-- Stableswap pool with the common-variant `_get_ann` and multipliers 1. -/
def ssCom (q0 q1 : Int) : SSPool := ⟨"A", "B", q0, q1, 1, 1, none, true⟩

lemma computeD_step1 (ann x y v : ℚ) (hs : x + y ≠ 0)
    (hxy : (4 : ℚ) * x * y ≠ 0)
    (hden : (ann - 1) * (x + y) + 3 * ((x + y) ^ 3 / (4 * x * y)) ≠ 0)
    (hv : (x + y) * (ann * (x + y) + ((x + y) ^ 3 / (4 * x * y)) * 2) /
      ((ann - 1) * (x + y) + 3 * ((x + y) ^ 3 / (4 * x * y))) = v)
    (htol : |v - (x + y)| < 1) :
    computeD ann x y = .ok v := by
  simp only [computeD]
  rw [if_neg hs, show (256 : ℕ) = 255 + 1 from rfl, dIter, dStep, if_neg hxy]
  simp only [hv]
  rw [if_neg hden]
  show (if |v - (x + y)| < 1 then Except.ok v
    else dIter ann (x + y) x y v 255) = Except.ok v
  rw [if_pos htol]

lemma ssStd_getD_eq (q0 q1 : Int) :
    (ssStd q0 q1).getD = computeD 300 (q0 : ℚ) (q1 : ℚ) := by
  simp only [SSPool.getD, SSPool.getAnn, SSPool.amp, SSPool.reserve_a,
    SSPool.reserve_b, ssStd]
  norm_num

lemma ssCom_getD_eq (q0 q1 : Int) :
    (ssCom q0 q1).getD = computeD 150 (q0 : ℚ) (q1 : ℚ) := by
  simp only [SSPool.getD, SSPool.getAnn, SSPool.amp, SSPool.reserve_a,
    SSPool.reserve_b, ssCom]
  norm_num

/-- Counterexample to C6 as stated: the two amplification variants have
different `ann` (300 vs 150), yet on the same positive reserves `(1, 1)`
both runs of `_get_d` return exactly `D = 2` — the variants do collapse to
identical numbers on balanced reserves. -/
theorem ann_variants_collapse :
    (ssStd 1 1).getAnn ≠ (ssCom 1 1).getAnn ∧
    (ssStd 1 1).getD = .ok 2 ∧ (ssCom 1 1).getD = .ok 2 := by
  refine ⟨by decide, ?_, ?_⟩
  · rw [ssStd_getD_eq]
    simpa using computeD_balanced 300 1 (by norm_num) (by norm_num)
  · rw [ssCom_getD_eq]
    simpa using computeD_balanced 150 1 (by norm_num) (by norm_num)

/-- C6 (amended): the standard variant computes `ann = amp * n ^ n = 300`
and the common variant `ann = amp * n = 150`, this being the only
difference; for unbalanced positive reserves such as `(1, 2)` the two
variants produce different `D` values (while exactly balanced reserves can
make them coincide). -/
theorem ann_variants_differ :
    (∀ p : SSPool, p.commonVariant = false → p.getAnn = p.amp * 2 ^ 2) ∧
    (∀ p : SSPool, p.commonVariant = true → p.getAnn = p.amp * 2) ∧
    (ssStd 1 2).getD ≠ (ssCom 1 2).getD := by
  refine ⟨?_, ?_, ?_⟩
  · intro p h; rw [SSPool.getAnn, h]; simp
  · intro p h; rw [SSPool.getAnn, h]; simp
  · have h1 : (ssStd 1 2).getD = .ok ((7254 : ℚ) / 2419) := by
      rw [ssStd_getD_eq]
      refine computeD_step1 300 1 2 ((7254 : ℚ) / 2419) (by norm_num)
        (by norm_num) (by norm_num) (by norm_num) ?_
      rw [abs_sub_lt_iff]
      constructor <;> norm_num
    have h2 : (ssCom 1 2).getD = .ok ((3654 : ℚ) / 1219) := by
      rw [ssCom_getD_eq]
      refine computeD_step1 150 1 2 ((3654 : ℚ) / 1219) (by norm_num)
        (by norm_num) (by norm_num) (by norm_num) ?_
      rw [abs_sub_lt_iff]
      constructor <;> norm_num
    rw [h1, h2]
    intro hEq
    have h3 := Except.ok.inj hEq
    norm_num at h3

/-- Witness for `ann_variants_differ`: the `ann` formulas evaluated on the
two example pools. -/
theorem ann_variants_differ_witness :
    (ssStd 1 2).getAnn = (ssStd 1 2).amp * 2 ^ 2 ∧
    (ssCom 1 2).getAnn = (ssCom 1 2).amp * 2 :=
  ⟨ann_variants_differ.1 (ssStd 1 2) rfl, ann_variants_differ.2.1 (ssCom 1 2) rfl⟩

/-- C3 (evidence for the code bug): the source's `get_amount_in` has no
guard when the desired output meets or exceeds the output-side reserve.
Requesting 1_000_001 of unit B from the 1_000_000/1_000_000 pool returns a
negative required input (floor division with a negative denominator), and
requesting exactly 1_000_000 divides by zero; neither path produces the
`InsufficientLiquidity` failure the spec requires. -/
theorem cp_amount_in_unguarded :
    swapQty (cpGetAmountIn cpPoolEx (Assets.single "B" 1000001) true) =
      some (-1003010030091) ∧
    (-1003010030091 : Int) < 0 ∧
    cpGetAmountIn cpPoolEx (Assets.single "B" 1000000) true =
      .error .zeroDivision := by
  refine ⟨by decide, by decide, by decide⟩

/-- C7: a bundle with zero units or with two or more units makes
`get_amount_out` and `get_amount_in` of the constant-product family and of
both stableswap variants fail with an `InvalidInput` error before any swap
quantity is computed. -/
theorem invalid_arity_rejected (a : Assets) (h : a.length ≠ 1)
    (p : CPPool) (sp : SSPool) (pr fee : Bool) :
    (∃ m, cpGetAmountOut p a pr = .error (.invalidInput m)) ∧
    (∃ m, cpGetAmountIn p a pr = .error (.invalidInput m)) ∧
    (∃ m, ssGetAmountOut sp a pr fee = .error (.invalidInput m)) ∧
    (∃ m, ssGetAmountIn sp a pr fee = .error (.invalidInput m)) := by
  have hE : a.unitE =
      .error (.invalidInput "Asset bundle does not contain exactly one unit.") := by
    rw [Assets.unitE, if_neg h]
  have h1 : cpGetAmountOut p a pr =
      .error (.invalidInput "Asset should only have one token.") := by
    rw [cpGetAmountOut, if_pos h]
  have h2 : cpGetAmountIn p a pr =
      .error (.invalidInput "Asset should only have one token.") := by
    rw [cpGetAmountIn, if_pos h]
  have h3 : ssGetAmountOut sp a pr fee =
      .error (.invalidInput "Asset bundle does not contain exactly one unit.") := by
    cases fee <;> simp [ssGetAmountOut, hE]
  have h4 : ssGetAmountIn sp a pr fee =
      .error (.invalidInput "Asset bundle does not contain exactly one unit.") := by
    cases fee <;> simp [ssGetAmountIn, hE]
  exact ⟨⟨_, h1⟩, ⟨_, h2⟩, ⟨_, h3⟩, ⟨_, h4⟩⟩

/-- Witness for `invalid_arity_rejected`: a two-unit bundle against the
example pools. -/
theorem invalid_arity_rejected_witness :
    (∃ m, cpGetAmountOut cpPoolEx ⟨[("A", 1), ("B", 2)]⟩ true =
      .error (.invalidInput m)) ∧
    (∃ m, cpGetAmountIn cpPoolEx ⟨[("A", 1), ("B", 2)]⟩ true =
      .error (.invalidInput m)) ∧
    (∃ m, ssGetAmountOut ssPoolBal ⟨[("A", 1), ("B", 2)]⟩ true true =
      .error (.invalidInput m)) ∧
    (∃ m, ssGetAmountIn ssPoolBal ⟨[("A", 1), ("B", 2)]⟩ true true =
      .error (.invalidInput m)) :=
  invalid_arity_rejected ⟨[("A", 1), ("B", 2)]⟩ (by decide) cpPoolEx ssPoolBal
    true true

/-- C8: when the floor-divided output quantity of constant-product
`get_amount_out` is zero, the call returns the zero-quantity bundle with
price impact exactly `0`, raising no error and never reaching the
price-impact division. -/
theorem cp_zero_output (p : CPPool) (u : String) (q : Int) (pr : Bool)
    (hu : u = p.unit_a ∨ u = p.unit_b)
    (hden : q * (10000 - p.feeOrZero) + p.reserveIn u * 10000 ≠ 0)
    (h0 : (q * (10000 - p.feeOrZero) * p.reserveOut u).fdiv
      (q * (10000 - p.feeOrZero) + p.reserveIn u * 10000) = 0) :
    cpGetAmountOut p (Assets.single u q) pr =
      .ok (Assets.single (p.unitOut u) 0, 0) := by
  rw [cpGetAmountOut]
  simp only [Assets.length_single, Assets.unit_single, Assets.quantity_single]
  rw [if_neg (by simp), if_neg (not_not_intro hu), if_neg hden, if_pos h0, h0]

/-- Witness for `cp_zero_output`: one lovelace of input against the
million-reserve pool floors to zero output. -/
theorem cp_zero_output_witness :
    cpGetAmountOut cpPoolEx (Assets.single "A" 1) true =
      .ok (Assets.single (cpPoolEx.unitOut "A") 0, 0) :=
  cp_zero_output cpPoolEx "A" 1 true (Or.inl rfl) (by decide) (by decide)

/-- C9: the constant-liquidity pool's `get_amount_out` and `get_amount_in`
unconditionally fail with an `Unimplemented` error naming the CLPP curve
family, for every input bundle and flag value. -/
theorem cl_unimplemented (a : Assets) (pr : Bool) :
    clGetAmountOut a pr =
      .error (.unimplemented "CLPP amount out is not yet implemented.") ∧
    clGetAmountIn a pr =
      .error (.unimplemented "CLPP amount in is not yet implemented.") :=
  ⟨rfl, rfl⟩
